import Mathlib

/-!
A verification development for the superhuman-cli repository, covering its
threading reconstruction (subject normalization, reply recipients, threading
headers), draft aggregation, native-draft mutation routing, and token cache.

Each definition is a shallow embedding of a function from the TypeScript
source; the file ends with theorems settling the specification's claims
against these definitions.
-/

set_option autoImplicit false

namespace SuperhumanCli

/-! ## Subject normalization (src/reply.ts) -/

/-- The whitespace class matched by the `\s*` part of the subject-stripping
regexes in `src/reply.ts`: JavaScript's `\s`, i.e. the ASCII whitespace
characters together with NBSP, the ogham space mark, the en/em-style spaces
U+2000-U+200A, the line and paragraph separators, the narrow and medium
mathematical spaces, the ideographic space and the BOM. -/
def isJsSpace (c : Char) : Bool :=
  c = ' ' || c = '\t' || c = '\n' || c = '\r' || c = '\x0b' || c = '\x0c' ||
  c = '\u00a0' || c = '\u1680' ||
  c = '\u2000' || c = '\u2001' || c = '\u2002' || c = '\u2003' || c = '\u2004' ||
  c = '\u2005' || c = '\u2006' || c = '\u2007' || c = '\u2008' || c = '\u2009' ||
  c = '\u200a' || c = '\u2028' || c = '\u2029' || c = '\u202f' || c = '\u205f' ||
  c = '\u3000' || c = '\ufeff'

/-- `subject.replace(/^Re:\s*/i, "")` from `stripRePrefix` in `src/reply.ts`:
the regex is anchored and not global, so it removes at most one leading
case-insensitive `Re:` token together with the whitespace after it. -/
def stripReChars : List Char → List Char
  | r :: e :: c :: rest =>
    if (r = 'R' || r = 'r') && (e = 'e' || e = 'E') && c = ':' then
      rest.dropWhile isJsSpace
    else
      r :: e :: c :: rest
  | l => l

/-- `stripRePrefix` from `src/reply.ts`, on `String`. -/
def stripRe (s : String) : String :=
  String.mk (stripReChars s.data)

/-- `formatReplySubject` from `src/reply.ts`. -/
def formatReplySubject (s : String) : String :=
  "Re: " ++ stripRe s

/-- `subject.replace(/^Fwd:\s*/i, "")` from `stripFwdPrefix` in
`src/reply.ts`. -/
def stripFwdChars : List Char → List Char
  | f :: w :: d :: c :: rest =>
    if (f = 'F' || f = 'f') && (w = 'w' || w = 'W') && (d = 'd' || d = 'D') && c = ':' then
      rest.dropWhile isJsSpace
    else
      f :: w :: d :: c :: rest
  | l => l

/-- `stripFwdPrefix` from `src/reply.ts`, on `String`. -/
def stripFwd (s : String) : String :=
  String.mk (stripFwdChars s.data)

/-- `formatForwardSubject` from `src/reply.ts`. -/
def formatForwardSubject (s : String) : String :=
  "Fwd: " ++ stripFwd s

theorem dropWhile_isJsSpace_idem (l : List Char) :
    (l.dropWhile isJsSpace).dropWhile isJsSpace = l.dropWhile isJsSpace := by
  induction l with
  | nil => rfl
  | cons a l ih =>
    by_cases h : isJsSpace a
    · simpa [List.dropWhile_cons, h] using ih
    · simp [List.dropWhile_cons, h]

theorem dropWhile_eq_self_of_head (l : List Char)
    (h : l.head?.all (fun c => !isJsSpace c) = true) :
    l.dropWhile isJsSpace = l := by
  cases l with
  | nil => rfl
  | cons a l =>
    simp only [List.head?, Option.all_some, Bool.not_eq_true'] at h
    simp [List.dropWhile_cons, h]

theorem stripReChars_re_append (t : List Char) :
    stripReChars ('R' :: 'e' :: ':' :: ' ' :: t) = t.dropWhile isJsSpace := by
  simp [stripReChars, List.dropWhile_cons, isJsSpace]

theorem stripFwdChars_fwd_append (t : List Char) :
    stripFwdChars ('F' :: 'w' :: 'd' :: ':' :: ' ' :: t) = t.dropWhile isJsSpace := by
  simp [stripFwdChars, List.dropWhile_cons, isJsSpace]

theorem formatReplySubject_data (s : String) :
    (formatReplySubject s).data = 'R' :: 'e' :: ':' :: ' ' :: stripReChars s.data := by
  cases s with
  | mk l => rfl

theorem formatForwardSubject_data (s : String) :
    (formatForwardSubject s).data = 'F' :: 'w' :: 'd' :: ':' :: ' ' :: stripFwdChars s.data := by
  cases s with
  | mk l => rfl

/-- C2 counterexample: the anchored, non-global regexes of `stripRePrefix` and
`stripFwdPrefix` remove only the first prefix token, so normalizing
"Re: Re: Budget" does not yield "Re: Budget", and normalizing
"Fwd: Fwd: Q3 plan" does not yield "Fwd: Q3 plan". -/
theorem c2_subject_concrete_counterexample :
    formatReplySubject "Re: Re: Budget" ≠ "Re: Budget" ∧
    formatForwardSubject "Fwd: Fwd: Q3 plan" ≠ "Fwd: Q3 plan" := by
  decide

/-- C2 (amended): only one leading prefix token is stripped before the new
prefix is prepended, so `formatReplySubject "Re: Re: Budget"` is
"Re: Re: Budget" and `formatForwardSubject "Fwd: Fwd: Q3 plan"` is
"Fwd: Fwd: Q3 plan". -/
theorem c2_subject_concrete :
    formatReplySubject "Re: Re: Budget" = "Re: Re: Budget" ∧
    formatForwardSubject "Fwd: Fwd: Q3 plan" = "Fwd: Fwd: Q3 plan" := by
  decide

/-- C5 counterexample: subject normalization is not idempotent on all strings.
For `" hi"` the first pass gives `"Re:  hi"` (two spaces) and the second pass
collapses the run of whitespace after the token, giving `"Re: hi"`. -/
theorem c5_idempotence_counterexample :
    ¬ ∀ s : String,
        formatReplySubject (formatReplySubject s) = formatReplySubject s ∧
        formatForwardSubject (formatForwardSubject s) = formatForwardSubject s := by
  intro h
  exact absurd (h " hi").1 (by decide)

/-- C5 (amended): subject normalization is idempotent for every subject whose
stripped form does not begin with a whitespace character (in particular for
every subject that does not itself begin with whitespace); applying
`formatReplySubject` or `formatForwardSubject` twice then equals applying it
once. -/
theorem formatSubject_idempotent (s : String)
    (hre : ((stripRe s).data.head?.all fun c => !isJsSpace c) = true)
    (hfwd : ((stripFwd s).data.head?.all fun c => !isJsSpace c) = true) :
    formatReplySubject (formatReplySubject s) = formatReplySubject s ∧
    formatForwardSubject (formatForwardSubject s) = formatForwardSubject s := by
  have hre' : ((stripReChars s.data).head?.all fun c => !isJsSpace c) = true := hre
  have hfwd' : ((stripFwdChars s.data).head?.all fun c => !isJsSpace c) = true := hfwd
  constructor
  · apply String.ext
    rw [formatReplySubject_data (formatReplySubject s), formatReplySubject_data s,
      stripReChars_re_append, dropWhile_eq_self_of_head _ hre']
  · apply String.ext
    rw [formatForwardSubject_data (formatForwardSubject s), formatForwardSubject_data s,
      stripFwdChars_fwd_append, dropWhile_eq_self_of_head _ hfwd']

/-- Witness for `formatSubject_idempotent` at the concrete subject "Budget". -/
theorem formatSubject_idempotent_witness :
    formatReplySubject (formatReplySubject "Budget") = formatReplySubject "Budget" ∧
    formatForwardSubject (formatForwardSubject "Budget") = formatForwardSubject "Budget" :=
  formatSubject_idempotent "Budget" (by decide) (by decide)

/-! ## Thread snapshots and threading metadata (src/send-api.ts) -/

/-- JavaScript `toLowerCase()` as used for address comparison in
`sendReply` (`src/send-api.ts`), character by character. -/
def lowerStr (s : String) : String :=
  String.mk (s.data.map Char.toLower)

/-- The `ThreadInfoForReply` record built by `getThreadInfoForReply` in
`src/send-api.ts`: the thread snapshot from which replies are computed.
Nullable fields of the TypeScript interface become `Option`. -/
structure ThreadInfoForReply where
  threadId : String
  subject : String
  lastMessageId : Option String
  references : List String
  replyTo : Option String
  allTo : List String
  allCc : List String
  myEmail : Option String
  deriving DecidableEq

/-- The references computation inside `getThreadInfoForReply`
(`src/send-api.ts` lines 681-689): start from the last message's existing
references and push the last message id if it is non-null and not already
present. -/
def buildReferences (existingRefs : List String) (lastMessageId : Option String) : List String :=
  match lastMessageId with
  | some m => if existingRefs.contains m then existingRefs else existingRefs ++ [m]
  | none => existingRefs

/-- The threading headers a reply carries: `inReplyTo` is the snapshot's
last message id (`src/send-api.ts` line 1148 / 1737), `references` is the
list built by `getThreadInfoForReply`. -/
structure ThreadingMetadata where
  inReplyTo : Option String
  references : List String
  deriving DecidableEq

/-- The threading metadata computed for a reply from a message's existing
references and the id of the message being replied to. -/
def computeThreadingMetadata (existingRefs : List String) (lastMessageId : Option String) :
    ThreadingMetadata :=
  { inReplyTo := lastMessageId, references := buildReferences existingRefs lastMessageId }

/-- C7: the threading metadata sets `inReplyTo` to the last message id and
appends the last message id to the references exactly when it is not already
present, preserving the input order; hence the output is never shorter than
the input and the id is never duplicated when it was already present. -/
theorem computeThreadingMetadata_spec (refs : List String) (m : String) :
    (computeThreadingMetadata refs (some m)).inReplyTo = some m ∧
    refs.length ≤ (computeThreadingMetadata refs (some m)).references.length ∧
    (m ∉ refs → (computeThreadingMetadata refs (some m)).references = refs ++ [m]) ∧
    (m ∈ refs → (computeThreadingMetadata refs (some m)).references = refs ∧
      (computeThreadingMetadata refs (some m)).references.count m = refs.count m) := by
  by_cases hm : m ∈ refs
  · refine ⟨rfl, ?_, fun hnot => absurd hm hnot, fun _ => ?_⟩
    · simp [computeThreadingMetadata, buildReferences, List.contains, hm]
    · simp [computeThreadingMetadata, buildReferences, List.contains, hm]
  · refine ⟨rfl, ?_, fun _ => ?_, fun hmem => absurd hmem hm⟩
    · simp [computeThreadingMetadata, buildReferences, List.contains, hm]
    · simp [computeThreadingMetadata, buildReferences, List.contains, hm]

/-- Witness for `computeThreadingMetadata_spec`: a fresh id is appended,
an already-present id is not duplicated. -/
theorem computeThreadingMetadata_spec_witness :
    (computeThreadingMetadata ["id1"] (some "id2")).references = ["id1", "id2"] ∧
    (computeThreadingMetadata ["id1", "id2"] (some "id2")).references = ["id1", "id2"] :=
  ⟨(computeThreadingMetadata_spec ["id1"] "id2").2.2.1 (by decide),
   ((computeThreadingMetadata_spec ["id1", "id2"] "id2").2.2.2 (by decide)).1⟩

/-! ## Reply recipients, send path (`sendReply` in src/send-api.ts) -/

/-- JavaScript `s.startsWith(pre)`, character-exact. -/
def strStartsWith (s pre : String) : Bool :=
  List.isPrefixOf pre.data s.data

/-- `email.toLowerCase() !== myEmail` (negated) from the reply-all loops of
`sendReply`: `myLower` is the already-lowercased optional self address; a
`null` self address excludes nobody. -/
def isSelfLower (myLower : Option String) (email : String) : Bool :=
  match myLower with
  | some m => lowerStr email == m
  | none => false

/-- The `for (const email of threadInfo.allTo)` loop of `sendReply`
(lines 1708-1712): push each address that is not self (case-insensitive) and
not already present (case-sensitive `includes`). -/
def addToRecipients (myLower : Option String) (acc : List String) : List String → List String
  | [] => acc
  | email :: rest =>
    if !isSelfLower myLower email && !acc.contains email then
      addToRecipients myLower (acc ++ [email]) rest
    else
      addToRecipients myLower acc rest

/-- The `additionalCc` filter of `sendReply` (lines 1715-1719): original Cc
addresses that are not self and whose lowercase form is not already among the
lowercased To recipients. -/
def additionalCcList (myLower : Option String) (toRecipients allCc : List String) : List String :=
  allCc.filter fun email =>
    !isSelfLower myLower email && !(toRecipients.map lowerStr).contains (lowerStr email)

/-- The outgoing message assembled by `sendReply` before dispatch: recipients,
subject and threading headers (the `SendEmailOptions` it passes on). -/
structure SendPlan where
  /-- the `to` field of `SendEmailOptions` (`to` is reserved in Lean) -/
  toAddrs : List String
  cc : Option (List String)
  subject : String
  threadId : String
  inReplyTo : Option String
  references : List String
  deriving DecidableEq

/-- The recipient computation of `sendReply` for reply-all (lines 1701-1723):
To is the original sender plus the non-self To recipients; Cc is the caller's
cc plus the non-self original Cc not already in To (the caller's cc survives
unchanged when no additional Cc remains). -/
def sendReplyAllRecipients (info : ThreadInfoForReply) (rt : String)
    (optCc : Option (List String)) : List String × Option (List String) :=
  let myLower := info.myEmail.map lowerStr
  let toRecipients := addToRecipients myLower [rt] info.allTo
  let addCc := additionalCcList myLower toRecipients info.allCc
  let cc := if 0 < addCc.length then some (optCc.getD [] ++ addCc) else optCc
  (toRecipients, cc)

/-- `sendReply` (Gmail flow, lines 1682-1741): fail when the snapshot has no
reply-to address, otherwise build the subject and the recipients (reply-all or
plain reply) together with the threading headers. -/
def sendReplyPlan (info : ThreadInfoForReply) (replyAll : Bool)
    (optCc : Option (List String)) : Except String SendPlan :=
  match info.replyTo with
  | none => Except.error "Could not determine reply-to address"
  | some rt =>
    let subject := if strStartsWith info.subject "Re:" then info.subject
      else "Re: " ++ info.subject
    if replyAll then
      let rc := sendReplyAllRecipients info rt optCc
      Except.ok { toAddrs := rc.1, cc := rc.2, subject := subject, threadId := info.threadId,
                  inReplyTo := info.lastMessageId, references := info.references }
    else
      Except.ok { toAddrs := [rt], cc := optCc, subject := subject, threadId := info.threadId,
                  inReplyTo := info.lastMessageId, references := info.references }

theorem mem_addToRecipients (myLower : Option String) (l : List String) :
    ∀ acc x, x ∈ addToRecipients myLower acc l →
      x ∈ acc ∨ (x ∈ l ∧ isSelfLower myLower x = false) := by
  induction l with
  | nil =>
    intro acc x hx
    simp only [addToRecipients] at hx
    exact Or.inl hx
  | cons email rest ih =>
    intro acc x hx
    simp only [addToRecipients] at hx
    by_cases hc : (!isSelfLower myLower email && !acc.contains email) = true
    · rw [if_pos hc] at hx
      rcases ih _ x hx with h | ⟨h1, h2⟩
      · rcases List.mem_append.mp h with h | h
        · exact Or.inl h
        · have hx_eq : x = email := by simpa using h
          subst hx_eq
          have hns : isSelfLower myLower x = false := by
            simp only [Bool.and_eq_true, Bool.not_eq_true'] at hc
            exact hc.1
          exact Or.inr ⟨List.mem_cons_self x rest, hns⟩
      · exact Or.inr ⟨List.mem_cons_of_mem _ h1, h2⟩
    · rw [if_neg hc] at hx
      rcases ih _ x hx with h | ⟨h1, h2⟩
      · exact Or.inl h
      · exact Or.inr ⟨List.mem_cons_of_mem _ h1, h2⟩

theorem mem_additionalCcList (myLower : Option String) (toRecipients allCc : List String)
    (x : String) (hx : x ∈ additionalCcList myLower toRecipients allCc) :
    isSelfLower myLower x = false ∧
    (toRecipients.map lowerStr).contains (lowerStr x) = false := by
  have h := (List.mem_filter.mp hx).2
  simp only [Bool.and_eq_true, Bool.not_eq_true'] at h
  exact h

/-- C1 counterexample: a snapshot whose last message was sent by the user
themselves. `sendReply` pushes `threadInfo.replyTo` into To unconditionally,
so the self address ends up in the computed To list. -/
def selfReplyInfo : ThreadInfoForReply :=
  { threadId := "t1", subject := "Hello", lastMessageId := none, references := [],
    replyTo := some "me@x.com", allTo := [], allCc := [], myEmail := some "me@x.com" }

/-- C1 counterexample: when the snapshot's reply-to address equals the self
address, the reply-all To list does contain the self address. -/
theorem sendReply_self_in_to_counterexample :
    ¬ ∀ plan, sendReplyPlan selfReplyInfo true none = Except.ok plan →
        lowerStr "me@x.com" ∉ plan.toAddrs.map lowerStr := by
  intro h
  exact h
    { toAddrs := ["me@x.com"], cc := none, subject := "Re: Hello", threadId := "t1",
      inReplyTo := none, references := [] }
    (by rfl) (by decide)

/-- C1 (amended): in the reply-all plan computed by `sendReply` with no
caller-supplied cc, the self address never appears in To or Cc
(case-insensitively, whatever letter case it has in `allTo`/`allCc`),
provided the snapshot's reply-to address is not itself the self address. -/
theorem sendReply_replyAll_excludes_self (info : ThreadInfoForReply) (self rt : String)
    (hself : info.myEmail = some self) (hrt : info.replyTo = some rt)
    (hne : lowerStr rt ≠ lowerStr self) (plan : SendPlan)
    (hplan : sendReplyPlan info true none = Except.ok plan) :
    lowerStr self ∉ plan.toAddrs.map lowerStr ∧
    lowerStr self ∉ (plan.cc.getD []).map lowerStr := by
  simp only [sendReplyPlan, hrt, if_pos, sendReplyAllRecipients, hself,
    Option.map_some', if_true, Except.ok.injEq] at hplan
  subst hplan
  constructor
  · intro hmem
    rcases List.mem_map.mp hmem with ⟨x, hx, hlx⟩
    rcases mem_addToRecipients (some (lowerStr self)) info.allTo [rt] x hx with h | ⟨_, h2⟩
    · have : x = rt := by simpa using h
      subst this
      exact hne hlx
    · rw [isSelfLower] at h2
      exact absurd hlx (by simpa using h2)
  · intro hmem
    rcases List.mem_map.mp hmem with ⟨x, hx, hlx⟩
    by_cases hlen :
        0 < (additionalCcList (some (lowerStr self))
          (addToRecipients (some (lowerStr self)) [rt] info.allTo) info.allCc).length
    · rw [if_pos hlen] at hx
      simp only [Option.getD_some, Option.getD_none, List.nil_append] at hx
      have h2 := (mem_additionalCcList _ _ _ x hx).1
      rw [isSelfLower] at h2
      exact absurd hlx (by simpa using h2)
    · rw [if_neg hlen] at hx
      simp at hx

/-- A thread snapshot with mixed-case occurrences of the self address in
`allTo` and `allCc`, used as the witness input below. -/
def mixedCaseInfo : ThreadInfoForReply :=
  { threadId := "t1", subject := "Hello", lastMessageId := none, references := [],
    replyTo := some "a@x.com", allTo := ["ME@x.com", "b@x.com"],
    allCc := ["Me@X.com", "c@x.com"], myEmail := some "me@x.com" }

/-- The reply-all plan computed for `mixedCaseInfo`. -/
def mixedCasePlan : SendPlan :=
  { toAddrs := ["a@x.com", "b@x.com"], cc := some ["c@x.com"], subject := "Re: Hello",
    threadId := "t1", inReplyTo := none, references := [] }

/-- Witness for `sendReply_replyAll_excludes_self` at `mixedCaseInfo`. -/
theorem sendReply_replyAll_excludes_self_witness :
    lowerStr "me@x.com" ∉ mixedCasePlan.toAddrs.map lowerStr := by
  have h := sendReply_replyAll_excludes_self mixedCaseInfo "me@x.com" "a@x.com"
    rfl rfl (by decide) mixedCasePlan (by rfl)
  exact h.1

/-- C6 (amended): in the reply-all plan of `sendReply`, no address of the
snapshot's `allCc` ends up both in To and in Cc (case-insensitively); with a
caller-supplied cc list the guarantee holds provided that list avoids the
computed To recipients (the code does not filter the caller's cc). -/
theorem sendReply_replyAll_no_cross_duplicate (info : ThreadInfoForReply)
    (optCc : Option (List String)) (plan : SendPlan)
    (hplan : sendReplyPlan info true optCc = Except.ok plan)
    (hcc : ∀ e ∈ optCc.getD [], lowerStr e ∉ plan.toAddrs.map lowerStr) :
    ∀ a ∈ plan.cc.getD [], lowerStr a ∉ plan.toAddrs.map lowerStr := by
  cases hrt : info.replyTo with
  | none => simp [sendReplyPlan, hrt] at hplan
  | some rt =>
    simp only [sendReplyPlan, hrt, sendReplyAllRecipients, if_true,
      Except.ok.injEq] at hplan
    subst hplan
    intro a ha
    by_cases hlen :
        0 < (additionalCcList (info.myEmail.map lowerStr)
          (addToRecipients (info.myEmail.map lowerStr) [rt] info.allTo) info.allCc).length
    · rw [if_pos hlen] at ha
      simp only [Option.getD_some] at ha
      rcases List.mem_append.mp ha with h | h
      · exact hcc a h
      · have h2 := (mem_additionalCcList _ _ _ a h).2
        simp only [List.contains] at h2
        intro hmem
        have h3 : lowerStr a ∈
            (addToRecipients (info.myEmail.map lowerStr) [rt] info.allTo).map lowerStr := hmem
        rw [List.elem_eq_mem, decide_eq_false_iff_not] at h2
        exact h2 h3
    · rw [if_neg hlen] at ha
      exact hcc a ha

/-- Witness for `sendReply_replyAll_no_cross_duplicate` at `mixedCaseInfo`
(where `allTo` and `allCc` even share the self address, in different cases):
"b@x.com" sits in To and is therefore absent from Cc. -/
theorem sendReply_replyAll_no_cross_duplicate_witness :
    lowerStr "c@x.com" ∉ mixedCasePlan.toAddrs.map lowerStr := by
  have h := sendReply_replyAll_no_cross_duplicate mixedCaseInfo none mixedCasePlan
    (by rfl) (by intro e he; simp at he)
  exact h "c@x.com" (by decide)

/-! ## Reply recipients, Gmail draft path (`createReplyDraftGmail` in src/send-api.ts) -/

/-- `email !== threadInfo.myEmail` (negated) from `createReplyDraftGmail`:
a strict, case-sensitive comparison; a `null` self address matches nobody. -/
def eqOptEmail (myEmail : Option String) (email : String) : Bool :=
  match myEmail with
  | some m => email == m
  | none => false

/-- The recipient-push loops of `createReplyDraftGmail` (lines 1112-1122):
push each address that is not exactly the self address and is not already in
the list being built. The To loop checks against To; the Cc loop checks
against Cc only, never against To. -/
def crdgAddRecipients (myEmail : Option String) (acc : List String) :
    List String → List String
  | [] => acc
  | email :: rest =>
    if !eqOptEmail myEmail email && !acc.contains email then
      crdgAddRecipients myEmail (acc ++ [email]) rest
    else
      crdgAddRecipients myEmail acc rest

/-- The recipient computation of `createReplyDraftGmail` (lines 1102-1132):
To starts from the reply-to address when present; for reply-all the `allTo`
loop extends To and the `allCc` loop extends the caller's cc; an empty To is
the only error. -/
def createReplyDraftGmailRecipients (info : ThreadInfoForReply) (replyAll : Bool)
    (optCc : Option (List String)) : Except String (List String × List String) :=
  let cc0 := optCc.getD []
  let base := match info.replyTo with | some rt => [rt] | none => []
  let toList := if replyAll then crdgAddRecipients info.myEmail base info.allTo else base
  let ccList := if replyAll then crdgAddRecipients info.myEmail cc0 info.allCc else cc0
  if toList.length = 0 then Except.error "No recipient found for reply"
  else Except.ok (toList, ccList)

/-- A snapshot whose last message had "b@x.com" both in To and in Cc. -/
def dupInfo : ThreadInfoForReply :=
  { threadId := "t1", subject := "s", lastMessageId := none, references := [],
    replyTo := some "a@x.com", allTo := ["b@x.com"], allCc := ["b@x.com"],
    myEmail := some "me@x.com" }

/-- C6 counterexample: `createReplyDraftGmail` dedupes Cc only against Cc, so
an address occurring in both `allTo` and `allCc` appears in both the computed
To and Cc lists. -/
theorem crdg_cross_duplicate_counterexample :
    ¬ ∀ p, createReplyDraftGmailRecipients dupInfo true none = Except.ok p →
        ∀ a ∈ p.2, lowerStr a ∉ p.1.map lowerStr := by
  intro h
  exact h (["a@x.com", "b@x.com"], ["b@x.com"]) (by rfl) "b@x.com" (by decide) (by decide)

/-! ## Forwarding (`forwardThread` in src/reply.ts) -/

/-- A recipient as read from a thread message (`{email, name}`). -/
structure Recipient where
  email : String
  name : String
  deriving DecidableEq

/-- The fields of a `ThreadMessage` (src/read.ts) that the reply/forward
functions consult (`from`, `to`, `cc` are reserved words in Lean, hence the
longer names). -/
structure ThreadMessage where
  fromAddr : Recipient
  toRecipients : List Recipient
  ccRecipients : List Recipient
  subject : String
  snippet : String
  date : String
  deriving DecidableEq

/-- What `forwardThread` sends: recipient and subject. -/
structure ForwardPlan where
  toAddrs : List String
  subject : String
  deriving DecidableEq

/-- `forwardThread` (src/reply.ts lines 284-320), recipient and subject part:
fail on an empty thread, otherwise address the message to the caller-supplied
forward target and reuse the last message's subject with a `Fwd:` prefix.
The thread's sender is never consulted for the recipient. -/
def forwardThreadPlan (messages : List ThreadMessage) (toEmail : String) : Option ForwardPlan :=
  match messages.getLast? with
  | none => none
  | some lastMessage =>
    some { toAddrs := [toEmail], subject := formatForwardSubject lastMessage.subject }

/-- A snapshot with no determinable sender but a surviving To recipient. -/
def noSenderInfo : ThreadInfoForReply :=
  { threadId := "t1", subject := "s", lastMessageId := none, references := [],
    replyTo := none, allTo := ["b@x.com"], allCc := [], myEmail := some "me@x.com" }

/-- C9 counterexample: with no reply-to address but a non-self `allTo`
recipient, `createReplyDraftGmail` in reply-all mode does not fail — it
produces a draft addressed to the surviving recipients. -/
theorem crdg_missing_sender_counterexample :
    createReplyDraftGmailRecipients noSenderInfo true none = Except.ok (["b@x.com"], []) ∧
    ∀ e, createReplyDraftGmailRecipients noSenderInfo true none ≠ Except.error e := by
  refine ⟨rfl, fun e h => ?_⟩
  have h2 : (Except.ok (["b@x.com"], []) : Except String (List String × List String)) =
      Except.error e :=
    (rfl : createReplyDraftGmailRecipients noSenderInfo true none =
      Except.ok (["b@x.com"], [])).symm.trans h
  exact Except.noConfusion h2

/-- C9 (amended): when the snapshot has no reply-to address, `sendReply`
fails for both reply and reply-all before anything is dispatched, and
`createReplyDraftGmail` fails for plain reply — and also for reply-all when
`allTo` offers no recipients; forwarding takes its one recipient from the
caller and never consults the thread's sender. -/
theorem reply_missing_sender (info : ThreadInfoForReply) (replyAll : Bool)
    (optCc : Option (List String)) (h : info.replyTo = none) :
    sendReplyPlan info replyAll optCc = Except.error "Could not determine reply-to address" ∧
    createReplyDraftGmailRecipients info false optCc =
      Except.error "No recipient found for reply" ∧
    (info.allTo = [] → createReplyDraftGmailRecipients info true optCc =
      Except.error "No recipient found for reply") ∧
    (∀ (messages : List ThreadMessage) (toEmail : String) (hne : messages ≠ []),
      forwardThreadPlan messages toEmail =
        some { toAddrs := [toEmail],
               subject := formatForwardSubject (messages.getLast hne).subject }) := by
  refine ⟨?_, ?_, ?_, ?_⟩
  · simp [sendReplyPlan, h]
  · simp [createReplyDraftGmailRecipients, h]
  · intro h2
    simp [createReplyDraftGmailRecipients, h, h2, crdgAddRecipients]
  · intro messages toEmail hne
    rw [forwardThreadPlan, List.getLast?_eq_getLast messages hne]

/-- Witness for `reply_missing_sender` at `noSenderInfo` (whose `replyTo`
is absent) and a one-message thread. -/
theorem reply_missing_sender_witness :
    sendReplyPlan noSenderInfo false none =
      Except.error "Could not determine reply-to address" ∧
    forwardThreadPlan
        [{ fromAddr := { email := "", name := "" }, toRecipients := [], ccRecipients := [],
           subject := "s", snippet := "", date := "" }] "f@x.com" =
      some { toAddrs := ["f@x.com"], subject := formatForwardSubject "s" } := by
  have h := reply_missing_sender noSenderInfo false none rfl
  exact ⟨h.1, h.2.2.2
    [{ fromAddr := { email := "", name := "" }, toRecipients := [], ccRecipients := [],
       subject := "s", snippet := "", date := "" }] "f@x.com" (by decide)⟩

/-! ## Draft aggregation (src/services/draft-service.ts) -/

/-- The `source` discriminant of a draft. -/
inductive DraftSource where
  | gmail
  | outlook
  | native
  deriving DecidableEq

/-- The `Draft` record of `src/services/draft-service.ts` (`from` and `to`
are reserved words in Lean, hence `fromAddr`/`toAddrs`). -/
structure Draft where
  id : String
  subject : String
  fromAddr : String
  toAddrs : List String
  preview : String
  timestamp : String
  source : DraftSource
  threadId : Option String
  deriving DecidableEq

/-- `DraftService.listDrafts` after `Promise.allSettled`: the settled result
of each provider, in provider-registration order (which is the order
`allSettled` reports results in, independent of settle timing), folded by the
`for (const result of results)` loop that appends fulfilled values and skips
rejections. -/
def listDraftsAggregate (settled : List (Except String (List Draft))) : List Draft :=
  settled.foldl
    (fun acc r =>
      match r with
      | Except.ok ds => acc ++ ds
      | Except.error _ => acc)
    []

theorem listDraftsAggregate_go (settled : List (Except String (List Draft)))
    (acc : List Draft) :
    settled.foldl
        (fun acc r =>
          match r with
          | Except.ok ds => acc ++ ds
          | Except.error _ => acc)
        acc
      = acc ++ (settled.filterMap Except.toOption).flatten := by
  induction settled generalizing acc with
  | nil => simp
  | cons r rest ih =>
    cases r with
    | ok ds => simp [Except.toOption, ih, List.append_assoc]
    | error e => simp [Except.toOption, ih]

theorem listDraftsAggregate_eq (settled : List (Except String (List Draft))) :
    listDraftsAggregate settled = (settled.filterMap Except.toOption).flatten := by
  simpa using listDraftsAggregate_go settled []

/-- C3: the aggregated listing is the concatenation, in source-registration
order, of exactly the resolving sources' results; rejecting sources
contribute nothing; an all-rejecting or empty source list yields `[]` rather
than an error; and with three sources of which only the second rejects the
result is the first source's drafts followed by the third's. -/
theorem listDrafts_partial_failure :
    (∀ settled : List (Except String (List Draft)),
        listDraftsAggregate settled = (settled.filterMap Except.toOption).flatten) ∧
    listDraftsAggregate [] = [] ∧
    (∀ settled : List (Except String (List Draft)),
        (∀ r ∈ settled, r.toOption = none) → listDraftsAggregate settled = []) ∧
    (∀ (d1 d3 : List Draft) (e : String),
        listDraftsAggregate [Except.ok d1, Except.error e, Except.ok d3] = d1 ++ d3) := by
  refine ⟨listDraftsAggregate_eq, rfl, ?_, ?_⟩
  · intro settled h
    rw [listDraftsAggregate_eq, List.filterMap_eq_nil_iff.mpr h]
    rfl
  · intro d1 d3 e
    rw [listDraftsAggregate_eq]
    simp [Except.toOption]

/-- Witness for `listDrafts_partial_failure`: a single rejecting source
yields the empty listing. -/
theorem listDrafts_partial_failure_witness :
    listDraftsAggregate [Except.error "boom"] = [] :=
  listDrafts_partial_failure.2.2.1 [Except.error "boom"] (by decide)

/-- `DraftService.listDrafts(limit, offset)`: every registered provider is
called with the same `limit` and `offset`, and the settled results are
aggregated. A provider is its (pure) response function. -/
def draftServiceListDrafts (providers : List (Nat → Nat → Except String (List Draft)))
    (limit offset : Nat) : List Draft :=
  listDraftsAggregate (providers.map fun provider => provider limit offset)

/-- A provider response respects the forwarded limit when, if it resolves,
it returns at most `limit` drafts. -/
def WithinLimit (r : Except String (List Draft)) (limit : Nat) : Prop :=
  match r with
  | Except.ok ds => ds.length ≤ limit
  | Except.error _ => True

theorem listDraftsAggregate_length_le (limit : Nat)
    (settled : List (Except String (List Draft)))
    (h : ∀ r ∈ settled, WithinLimit r limit) :
    (listDraftsAggregate settled).length ≤ settled.length * limit := by
  induction settled with
  | nil => simp [listDraftsAggregate]
  | cons r rest ih =>
    have hrest := ih fun x hx => h x (List.mem_cons_of_mem _ hx)
    rw [listDraftsAggregate_eq] at hrest ⊢
    cases r with
    | ok ds =>
      have hr : ds.length ≤ limit := h (Except.ok ds) (List.mem_cons_self _ _)
      simp only [List.filterMap_cons, Except.toOption, List.flatten_cons,
        List.length_append, List.length_cons]
      calc ds.length + (List.filterMap Except.toOption rest).flatten.length
          ≤ limit + rest.length * limit := Nat.add_le_add hr hrest
        _ = (rest.length + 1) * limit := by ring
    | error e =>
      simp only [List.filterMap_cons, Except.toOption, List.length_cons]
      calc (List.filterMap Except.toOption rest).flatten.length
          ≤ rest.length * limit := hrest
        _ ≤ (rest.length + 1) * limit := Nat.mul_le_mul_right _ (Nat.le_succ _)

/-- A fixed draft used in concrete instances. -/
def sampleDraft : Draft :=
  { id := "d1", subject := "s", fromAddr := "me@x.com", toAddrs := [], preview := "",
    timestamp := "", source := DraftSource.gmail, threadId := none }

/-- C10: the limit bounds each source individually, not the merged result:
with well-behaved sources the merged listing holds at most
(number of sources) × limit drafts, and two sources each filling a limit of 1
produce a merged listing of 2 drafts. -/
theorem draftService_limit_per_source :
    (∀ (providers : List (Nat → Nat → Except String (List Draft))) (limit offset : Nat),
        (∀ provider ∈ providers, WithinLimit (provider limit offset) limit) →
        (draftServiceListDrafts providers limit offset).length ≤
          providers.length * limit) ∧
    (draftServiceListDrafts
        [fun _ _ => Except.ok [sampleDraft], fun _ _ => Except.ok [sampleDraft]] 1 0).length
      = 2 := by
  constructor
  · intro providers limit offset h
    have hmap : ∀ r ∈ providers.map (fun provider => provider limit offset),
        WithinLimit r limit := by
      intro r hr
      rcases List.mem_map.mp hr with ⟨provider, hp, rfl⟩
      exact h provider hp
    have hlen := listDraftsAggregate_length_le limit _ hmap
    simpa [draftServiceListDrafts, List.length_map] using hlen
  · rfl

/-- Witness for `draftService_limit_per_source` with one source and limit 1. -/
theorem draftService_limit_per_source_witness :
    (draftServiceListDrafts [fun _ _ => Except.ok [sampleDraft]] 1 0).length ≤ 1 * 1 := by
  apply draftService_limit_per_source.1
  intro provider hp
  rcases List.mem_singleton.mp hp with rfl
  exact Nat.le_refl 1

/-! ## Native draft mutation routing (`SuperhumanDraftProvider`) -/

/-- What a call to `updateDraft`/`deleteDraft` ends in: a thrown
"Draft ... not found", a thrown "No Superhuman token available", a thrown
"missing threadId", or a backend mutation against a resolved thread id. -/
inductive MutationOutcome where
  | notFound
  | noToken
  | missingThreadId
  | mutated (threadId : String) (draftId : String)
  deriving DecidableEq

/-- Step 1 of `updateDraft`/`deleteDraft`: consult the provider's
`draftCache` first and fall back to a fresh `listDrafts()` result. -/
def lookupDraft (cache listing : List Draft) (draftId : String) : Option Draft :=
  match cache.find? (fun d => d.id == draftId) with
  | some d => some d
  | none => listing.find? (fun d => d.id == draftId)

/-- `SuperhumanDraftProvider.updateDraft` (src/unnamed/part_001 lines
93-143): resolve the draft (cache first, then a fresh listing), then require
the backend token, then the resolved draft's `threadId`, and only then issue
the backend mutation against that thread. -/
def updateDraftOutcome (hasToken : Bool) (cache listing : List Draft)
    (draftId : String) : MutationOutcome :=
  match lookupDraft cache listing draftId with
  | none => MutationOutcome.notFound
  | some d =>
    if hasToken then
      match d.threadId with
      | none => MutationOutcome.missingThreadId
      | some tid => MutationOutcome.mutated tid draftId
    else MutationOutcome.noToken

/-- `SuperhumanDraftProvider.deleteDraft` (lines 145-185): the same
resolution steps as `updateDraft` before the delete call. -/
def deleteDraftOutcome (hasToken : Bool) (cache listing : List Draft)
    (draftId : String) : MutationOutcome :=
  match lookupDraft cache listing draftId with
  | none => MutationOutcome.notFound
  | some d =>
    if hasToken then
      match d.threadId with
      | none => MutationOutcome.missingThreadId
      | some tid => MutationOutcome.mutated tid draftId
    else MutationOutcome.noToken

/-- A cached draft record whose id the backend listing no longer contains. -/
def staleDraft : Draft :=
  { id := "draft001", subject := "s", fromAddr := "me@x.com", toAddrs := [], preview := "",
    timestamp := "", source := DraftSource.native, threadId := some "T1" }

/-- C8 counterexample: the provider consults its cache before any listing,
so a draft id absent from the source's listing but still cached is mutated
rather than rejected with NotFound. -/
theorem draft_mutation_stale_cache_counterexample :
    (∀ d ∈ ([] : List Draft), d.id ≠ "draft001") ∧
    updateDraftOutcome true [staleDraft] [] "draft001" =
      MutationOutcome.mutated "T1" "draft001" ∧
    updateDraftOutcome true [staleDraft] [] "draft001" ≠ MutationOutcome.notFound := by
  refine ⟨by simp, rfl, by decide⟩

theorem mutated_of_updateDraftOutcome (hasToken : Bool) (cache listing : List Draft)
    (draftId tid did : String)
    (h : updateDraftOutcome hasToken cache listing draftId =
      MutationOutcome.mutated tid did) :
    did = draftId ∧
    ∃ d, (d ∈ cache ∨ d ∈ listing) ∧ d.id = draftId ∧ d.threadId = some tid := by
  cases hfind : lookupDraft cache listing draftId with
  | none => simp [updateDraftOutcome, hfind] at h
  | some d =>
    have hd : (d ∈ cache ∨ d ∈ listing) ∧ d.id = draftId := by
      rw [lookupDraft] at hfind
      cases hfc : cache.find? (fun d => d.id == draftId) with
      | some d' =>
        rw [hfc] at hfind
        cases hfind
        exact ⟨Or.inl (List.mem_of_find?_eq_some hfc),
          by simpa using List.find?_some hfc⟩
      | none =>
        rw [hfc] at hfind
        exact ⟨Or.inr (List.mem_of_find?_eq_some hfind),
          by simpa using List.find?_some hfind⟩
    simp only [updateDraftOutcome, hfind] at h
    cases htok : hasToken with
    | false => rw [htok] at h; simp at h
    | true =>
      rw [htok, if_pos rfl] at h
      cases hth : d.threadId with
      | none => rw [hth] at h; simp at h
      | some t =>
        rw [hth] at h
        cases h
        exact ⟨rfl, d, hd.1, hd.2, hth⟩

/-- C8 (amended): a draft id that is neither in the provider's cache nor in
a fresh listing makes both `updateDraft` and `deleteDraft` end in NotFound
with no mutation attempted; and every mutation that is attempted targets the
draft id itself together with a thread id resolved from a cached or freshly
listed draft record. -/
theorem draft_mutation_unknown_id :
    (∀ (hasToken : Bool) (cache listing : List Draft) (draftId : String),
        (∀ d ∈ cache, d.id ≠ draftId) → (∀ d ∈ listing, d.id ≠ draftId) →
        updateDraftOutcome hasToken cache listing draftId = MutationOutcome.notFound ∧
        deleteDraftOutcome hasToken cache listing draftId = MutationOutcome.notFound) ∧
    (∀ (hasToken : Bool) (cache listing : List Draft) (draftId tid did : String),
        updateDraftOutcome hasToken cache listing draftId =
            MutationOutcome.mutated tid did ∨
          deleteDraftOutcome hasToken cache listing draftId =
            MutationOutcome.mutated tid did →
        did = draftId ∧
        ∃ d, (d ∈ cache ∨ d ∈ listing) ∧ d.id = draftId ∧ d.threadId = some tid) := by
  constructor
  · intro hasToken cache listing draftId hcache hlisting
    have hfc : cache.find? (fun d => d.id == draftId) = none :=
      List.find?_eq_none.mpr fun x hx => by simpa using hcache x hx
    have hfl : listing.find? (fun d => d.id == draftId) = none :=
      List.find?_eq_none.mpr fun x hx => by simpa using hlisting x hx
    constructor
    · simp [updateDraftOutcome, lookupDraft, hfc, hfl]
    · simp [deleteDraftOutcome, lookupDraft, hfc, hfl]
  · intro hasToken cache listing draftId tid did h
    rcases h with h | h
    · exact mutated_of_updateDraftOutcome hasToken cache listing draftId tid did h
    · exact mutated_of_updateDraftOutcome hasToken cache listing draftId tid did
        (by rw [show updateDraftOutcome hasToken cache listing draftId =
          deleteDraftOutcome hasToken cache listing draftId from rfl]; exact h)

/-- Witness for `draft_mutation_unknown_id`: an unknown id on an empty cache
and listing is NotFound. -/
theorem draft_mutation_unknown_id_witness :
    updateDraftOutcome true [] [] "nope" = MutationOutcome.notFound :=
  (draft_mutation_unknown_id.1 true [] [] "nope" (by simp) (by simp)).1

/-! ## Token cache (`getToken`/`extractToken` in src/read.ts) -/

/-- The `TokenInfo` record of src/read.ts; times are milliseconds since
epoch. -/
structure TokenInfo where
  accessToken : String
  email : String
  expires : Nat
  isMicrosoft : Bool
  deriving DecidableEq

/-- The expiry `extractToken` stores:
`authData.expires || (Date.now() + 3600000)` — the live client's reported
expiry when truthy, else one hour from now (`none` models an absent field,
`some 0` the falsy zero). -/
def extractedExpires (now : Nat) (authExpires : Option Nat) : Nat :=
  match authExpires with
  | none => now + 3600000
  | some e => if e = 0 then now + 3600000 else e

/-- The `TokenInfo` assembled by `extractToken` (src/read.ts lines 229-287)
from the live client's `credential._authData`. -/
def extractTokenModel (now : Nat) (authAccessToken authEmail : String)
    (authExpires : Option Nat) (authIsMicrosoft : Bool) : TokenInfo :=
  { accessToken := authAccessToken, email := authEmail,
    expires := extractedExpires now authExpires, isMicrosoft := authIsMicrosoft }

/-- `getToken` (src/read.ts lines 302-327): return the cached record unless
it is expired or expiring within the 5-minute buffer, in which case extract a
fresh token (`fresh`) and return it. The `Bool` records whether extraction
was performed. -/
def getTokenModel (now : Nat) (cached : Option TokenInfo) (fresh : TokenInfo) :
    TokenInfo × Bool :=
  match cached with
  | some c => if c.expires < now + 300000 then (fresh, true) else (c, false)
  | none => (fresh, true)

/-- C4 counterexample: a cached record expired in the past does trigger a
refresh, but the freshly extracted record's expiry is whatever the live
client reports — here itself in the past — so the handed-out record's expiry
is not strictly in the future. -/
theorem getToken_stale_extraction_counterexample :
    (1 : Nat) < 1000000 ∧
    ¬ 1000000 <
      (getTokenModel 1000000
        (some { accessToken := "old", email := "a@x.com", expires := 1, isMicrosoft := false })
        (extractTokenModel 1000000 "new" "a@x.com" (some 500) false)).1.expires := by
  decide

/-- C4 (amended): when the cached expiry lies in the past, the next `get`
does refresh first — it never hands back the stale cached record — and the
returned record is the freshly extracted one, whose expiry exceeds `now`
whenever the live client reports no expiry, a falsy zero, or a future
expiry. -/
theorem getToken_refreshes_expired (now : Nat) (c : TokenInfo)
    (authAccessToken authEmail : String) (authExpires : Option Nat)
    (authIsMicrosoft : Bool) (fresh : TokenInfo)
    (hfresh : fresh = extractTokenModel now authAccessToken authEmail authExpires
      authIsMicrosoft)
    (hpast : c.expires < now) :
    (getTokenModel now (some c) fresh).2 = true ∧
    (getTokenModel now (some c) fresh).1 = fresh ∧
    ((authExpires = none ∨ authExpires = some 0 ∨ (∃ e, authExpires = some e ∧ now < e)) →
      now < (getTokenModel now (some c) fresh).1.expires) := by
  have hbuf : c.expires < now + 300000 := Nat.lt_of_lt_of_le hpast (Nat.le_add_right _ _)
  refine ⟨by simp [getTokenModel, hbuf], by simp [getTokenModel, hbuf], ?_⟩
  intro hgood
  have h1 : (getTokenModel now (some c) fresh).1 = fresh := by simp [getTokenModel, hbuf]
  rw [h1, hfresh]
  rcases hgood with h | h | ⟨e, he, hlt⟩
  · simp [extractTokenModel, extractedExpires, h]
  · simp [extractTokenModel, extractedExpires, h]
  · simp only [extractTokenModel, extractedExpires, he]
    by_cases hz : e = 0
    · rw [if_pos hz]; omega
    · rw [if_neg hz]; exact hlt

/-- Witness for `getToken_refreshes_expired`: a record expired at time 5,
queried at time 1000, with the client reporting no expiry. -/
theorem getToken_refreshes_expired_witness :
    (getTokenModel 1000
      (some { accessToken := "old", email := "a@x.com", expires := 5, isMicrosoft := false })
      (extractTokenModel 1000 "new" "a@x.com" none false)).2 = true :=
  (getToken_refreshes_expired 1000
    { accessToken := "old", email := "a@x.com", expires := 5, isMicrosoft := false }
    "new" "a@x.com" none false _ rfl (by decide)).1

end SuperhumanCli
